import Mathlib

/-!
Shallow embedding of the report intake pipeline of penguin-backend-next
(drop normalization, batch preprocessing, queue commit, recall) and of the
matrix-update push protocol schema, together with theorems checking the
specification's claims against it.

Go strings are embedded as lists of characters; Go maps with string keys as
functions into `Option`; fallible Go calls as `Except`-valued functions whose
external collaborators (item lookup, stage lookup, the key-value store, the
queue client) are passed in as explicit oracles.
-/

/-- A Go string value, embedded as its list of characters. -/
abbrev Str := List Char

/-- Coerce a Lean string literal into the `Str` embedding. -/
def str (s : String) : Str := s.toList

/-- Embeds `konst.DropTypeMap` (= `constant.DropTypeMap`): the closed
vocabulary mapping an API drop type to a database drop type.  A Go map
lookup that misses returns `none` (the Go zero value is applied at use
sites, mirroring `m[k]`). -/
def DropTypeMap (s : Str) : Option Str :=
  if s = str "REGULAR_DROP" then some (str "REGULAR")
  else if s = str "NORMAL_DROP" then some (str "REGULAR")
  else if s = str "SPECIAL_DROP" then some (str "SPECIAL")
  else if s = str "EXTRA_DROP" then some (str "EXTRA")
  else none

/-- Embeds `konst.DropTypeMapKeys`: the fixed ordered list of valid keys
used in validation error messages, exactly as written in the source. -/
def DropTypeMapKeys : List Str :=
  [str "NORMAL_DROP", str "SPECIAL_DROP", str "EXTRA_DROP"]

/-- Embeds `types.ArkDrop`: a raw drop as submitted (external drop type,
external item id, quantity). -/
structure ArkDrop where
  dropType : Str
  itemId : Str
  quantity : Int
deriving DecidableEq, Repr

/-- Embeds the internal item record as far as the pipeline reads it:
`item.ItemID`, the internal numeric item id. -/
structure Item where
  itemID : Int
deriving DecidableEq, Repr

/-- Outcome of the external item lookup `ItemService.GetItemByArkId`:
either the not-found sentinel `pgerr.ErrNotFound` or some other error
(carried as an opaque code). -/
inductive LookupErr where
  | notFound
  | failure (code : Nat)
deriving DecidableEq, Repr

/-- Embeds `types.Drop`: a normalized drop (database drop type, internal
item id, quantity). -/
structure Drop where
  dropType : Str
  itemID : Int
  quantity : Int
deriving DecidableEq, Repr

/-- The merge key of a raw drop: its drop type mapped through the closed
vocabulary, paired with the external item id. -/
def mergeKey (d : ArkDrop) : Option Str × Str :=
  (DropTypeMap d.dropType, d.itemId)

/-- Insert one raw drop into an accumulator, summing quantities with an
existing entry sharing its merge key, else appending it. -/
def addMerged : List ArkDrop → ArkDrop → List ArkDrop
  | [], d => [d]
  | a :: rest, d =>
    if mergeKey a = mergeKey d then
      { a with quantity := a.quantity + d.quantity } :: rest
    else
      a :: addMerged rest d

/-- Modelled from the spec: `reportutil.MergeDropsByDropTypeAndItemID` is
not under `src/` (only its caller is).  Per the spec's Drop Normalizer,
each drop type is first looked up in the closed vocabulary and quantities
are then summed across entries sharing the (drop-type, item id) key, so
that e.g. REGULAR_DROP and NORMAL_DROP entries for the same item merge. -/
def MergeDropsByDropTypeAndItemID (drops : List ArkDrop) : List ArkDrop :=
  drops.foldl addMerged []

/-- The conversion a single raw drop undergoes in the loop body of
`pipelineMergeDropsAndMapDropTypes`: `none` when the item lookup misses
(the drop is skipped), otherwise the normalized drop, with the Go map
read `constant.DropTypeMap[drop.DropType]` yielding the zero value `""`
on a missing key. -/
def convDrop (lookup : Str → Except LookupErr Item) (a : ArkDrop) : Option Drop :=
  match lookup a.itemId with
  | .ok item => some { dropType := (DropTypeMap a.dropType).getD []
                       itemID := item.itemID
                       quantity := a.quantity }
  | .error _ => none

/-- Whether the item lookup for a raw drop reports the not-found sentinel. -/
def notFoundF (lookup : Str → Except LookupErr Item) (a : ArkDrop) : Bool :=
  match lookup a.itemId with
  | .error .notFound => true
  | _ => false

/-- Embeds the loop of `pipelineMergeDropsAndMapDropTypes`: convert drops
left to right; a not-found lookup skips the drop and records a warning
(the warned ark item id), any other lookup error aborts with that error. -/
def convertDrops (lookup : Str → Except LookupErr Item) :
    List ArkDrop → Except Nat (List Drop × List Str)
  | [] => .ok ([], [])
  | a :: rest =>
    match lookup a.itemId with
    | .error .notFound =>
      match convertDrops lookup rest with
      | .error e => .error e
      | .ok (ds, ws) => .ok (ds, a.itemId :: ws)
    | .error (.failure e) => .error e
    | .ok item =>
      match convertDrops lookup rest with
      | .error e => .error e
      | .ok (ds, ws) =>
        .ok ({ dropType := (DropTypeMap a.dropType).getD []
               itemID := item.itemID
               quantity := a.quantity } :: ds, ws)

/-- Embeds `Report.pipelineMergeDropsAndMapDropTypes`: merge duplicate
drops, then resolve item ids and map drop types.  Returns the normalized
drops together with the list of warned (ignored) ark item ids. -/
def pipelineMergeDropsAndMapDropTypes (lookup : Str → Except LookupErr Item)
    (drops : List ArkDrop) : Except Nat (List Drop × List Str) :=
  convertDrops lookup (MergeDropsByDropTypeAndItemID drops)

/-- A concrete item catalog used for grounding theorems on inputs: the
external item id "A" resolves to internal id 42, everything else misses. -/
def lookupEx : Str → Except LookupErr Item := fun s =>
  if s = str "A" then .ok { itemID := 42 } else .error .notFound

/-- The concrete raw-drop list from the spec's merge-idempotence property. -/
def dropsEx : List ArkDrop :=
  [{ dropType := str "REGULAR_DROP", itemId := str "A", quantity := 1 },
   { dropType := str "NORMAL_DROP", itemId := str "A", quantity := 2 }]

/-- Embeds `dto.Drop`: a drop as carried by the singular-report DTO. -/
structure DtoDrop where
  dropType : Str
  itemId : Str
  quantity : Int
deriving DecidableEq, Repr

/-- Embeds `dto.SingularReportRequest` as far as `VerifySingularReport`
reads it: server, stage id and the raw drop list. -/
structure SingularReportRequest where
  server : Str
  stageId : Str
  drops : List DtoDrop
deriving DecidableEq, Repr

/-- A row returned by the drop-info repository; its contents are opaque to
the verification logic, which only counts rows. -/
structure DropInfo where
  infoId : Nat
deriving DecidableEq, Repr

/-- The errors `VerifySingularReport` can return: an invalid drop type, a
drop-info count mismatch, or an error propagated from the repository. -/
inductive VerifyErr where
  | invalidDropType (got : Str)
  | invalidDropInfoCount (expected got : Nat)
  | repoErr (code : Nat)
deriving DecidableEq, Repr

/-- Embeds the linq `SelectT`/`ToSlice` phase of `VerifySingularReport`:
every drop is visited left to right; a valid drop contributes the tuple
`[itemId, mappedDropType]`, an invalid one contributes the nil slice and
assigns the captured `err` variable (so a later invalid drop overwrites
an earlier one's error). -/
def buildTuples : List DtoDrop → List (List Str) × Option VerifyErr
  | [] => ([], none)
  | d :: rest =>
    let bt := buildTuples rest
    match DropTypeMap d.dropType with
    | some m => ((d.itemId :: [m]) :: bt.1, bt.2)
    | none => ([] :: bt.1, if bt.2.isSome then bt.2 else some (.invalidDropType d.dropType))

/-- Embeds `ReportService.VerifySingularReport`: build the
(item, drop-type) tuples, failing on any unknown drop type; then query the
drop-info repository (an oracle) and require one row per submitted drop. -/
def VerifySingularReport
    (getDropInfo : Str → Str → List (List Str) → Except Nat (List DropInfo))
    (report : SingularReportRequest) : Except VerifyErr (List DropInfo) :=
  let bt := buildTuples report.drops
  match bt.2 with
  | some e => .error e
  | none =>
    match getDropInfo report.server report.stageId bt.1 with
    | .error c => .error (.repoErr c)
    | .ok infos =>
      if infos.length ≠ report.drops.length then
        .error (.invalidDropInfoCount report.drops.length infos.length)
      else
        .ok infos

/-- Embeds `types.ReportTaskSingleReport` (which embeds
`FragmentStageID`): one normalized report inside a task. -/
structure SingleReport where
  stageID : Str
  drops : List Drop
  times : Int
  metadata : Option Nat
deriving DecidableEq, Repr

/-- Embeds `types.ReportTask` (which embeds `FragmentReportCommon`): the
queue-bound unit of work.  A field never assigned in a Go composite
literal keeps its zero value, so `createdAt` is `0` unless set. -/
structure ReportTask where
  taskID : Str
  createdAt : Int
  server : Str
  source : Str
  version : Str
  reports : List SingleReport
  accountID : Int
  ip : Str
deriving DecidableEq, Repr

/-- The errors `commitReportTask` can surface: a synchronous
`PublishAsync` call error, an error delivered on `pub.Err()`, the
caller's context cancellation, or the dedicated `ErrNatsTimeout`. -/
inductive CommitError where
  | publishCall (code : Nat)
  | publishNak (code : Nat)
  | canceled (code : Nat)
  | natsTimeout
deriving DecidableEq, Repr

/-- Which branch of the four-way `select` in `commitReportTask` fires
first: the ack channel, the error channel, the caller's context, or the
10-second timer. -/
inductive RaceWinner where
  | ackOk
  | ackErr (code : Nat)
  | ctxDone (code : Nat)
  | timeout
deriving DecidableEq, Repr

/-- The fixed bound of the `time.After(time.Second * 10)` branch, in
seconds. -/
def commitTimeoutSeconds : Nat := 10

/-- Embeds `Report.pipelineTaskId`: the request trace id joined to a
16-character random suffix. -/
def pipelineTaskId (requestId rand16 : Str) : Str :=
  requestId ++ str "-" ++ rand16

/-- Embeds `Report.commitReportTask`.  Serialization of the task record
cannot fail on these concrete struct types, so `json.Marshal` is modelled
as total; `PublishAsync`'s synchronous outcome and the winning `select`
branch are oracles.  Returns the (taskId, error) pair the Go function
returns, together with the task value handed to `PublishAsync` (its
`TaskID` having been assigned first). -/
def commitReportTask (requestId rand16 : Str) (task : ReportTask)
    (publishCallErr : Option Nat) (winner : RaceWinner) :
    (Str × Option CommitError) × ReportTask :=
  let tid := pipelineTaskId requestId rand16
  let task := { task with taskID := tid }
  (match publishCallErr with
   | some c => ([], some (.publishCall c))
   | none =>
     match winner with
     | .ackErr c => ([], some (.publishNak c))
     | .ackOk => (tid, none)
     | .ctxDone c => ([], some (.canceled c))
     | .timeout => ([], some .natsTimeout), task)

/-- Go `strings.HasPrefix`, on embedded strings. -/
def goStartsWith (s pre : Str) : Bool := pre.isPrefixOf s

/-- Go `strings.HasSuffix`, on embedded strings. -/
def goEndsWith (s suf : Str) : Bool := suf.isSuffixOf s

/-- Go `strings.Replace(s, old, new, 1)`: replace the first occurrence of
`old` in `s` by `new`; `s` is returned unchanged when `old` does not
occur. -/
def goReplaceFirst (old new : Str) : Str → Str
  | [] => if old = [] then new else []
  | c :: rest =>
    if old.isPrefixOf (c :: rest) then new ++ List.drop old.length (c :: rest)
    else c :: goReplaceFirst old new rest

/-- Embeds `types.SingleReportRequest` as far as the pipeline reads it
(`FragmentReportCommon` and `FragmentStageID` are embedded structs, so
`req.StageID` is the one stage-id field). -/
structure SingleReportRequest where
  server : Str
  source : Str
  version : Str
  stageID : Str
  drops : List ArkDrop
  metadata : Option Nat
deriving DecidableEq, Repr

/-- The fixed cutoff of the act18d3 mitigation, in Unix milliseconds. -/
def maaCutoffMilli : Int := 1654718400000

/-- Embeds `Report.pipelineMaaAct18d3TemporaryMitigation`, with the
current time (`time.Now().UnixMilli()`) passed in explicitly. -/
def pipelineMaaAct18d3TemporaryMitigation (nowMilli : Int)
    (req : SingleReportRequest) : SingleReportRequest :=
  if nowMilli < maaCutoffMilli ∧ req.source = str "MeoAssistant" then
    if goStartsWith req.stageID (str "act18d3_") ∧ goEndsWith req.stageID (str "_perm") then
      { req with stageID := goReplaceFirst (str "_perm") (str "_rep") req.stageID }
    else req
  else req

/-- The stage-id pattern named by the spec (and by the mitigation's own
code comment): `act18d3_0<digit>_perm`, i.e. exactly 15 characters, the
literal head `act18d3_0`, one digit, then the literal tail `_perm`. -/
def specPatternAct18d3 (s : Str) : Bool :=
  decide (s.length = 15) && goStartsWith s (str "act18d3_0")
    && goEndsWith s (str "_perm")
    && (match List.drop 9 s with
        | d :: _ => d.isDigit
        | [] => false)

/-- Embeds `constant.ExtraProcessTypeGachaBox`, the stage category that
triggers gachabox aggregation. -/
def ExtraProcessTypeGachaBox : Str := str "GACHABOX"

/-- Modelled from the spec: `reportutil.AggregateGachaBoxDrops` is not
under `src/` (only its caller is).  Per the spec's Gachabox Aggregator it
recomputes `times` from the drop quantities so the report represents the
aggregated pulls instead of flat drop rows. -/
def AggregateGachaBoxDrops (r : SingleReport) : SingleReport :=
  { r with times := r.drops.foldl (fun acc d => acc + d.quantity) 0 }

/-- Embeds `Report.pipelineAggregateGachaboxDrops`: look up the stage's
extra-process category (an oracle for
`StageService.GetStageExtraProcessTypeByArkId`, `none` standing for an
invalid/absent category); an error is fatal; the gachabox category
triggers aggregation, anything else passes the report through. -/
def pipelineAggregateGachaboxDrops (stageCat : Str → Except Nat (Option Str))
    (r : SingleReport) : Except Nat SingleReport :=
  match stageCat r.stageID with
  | .error e => .error e
  | .ok cat => if cat = some ExtraProcessTypeGachaBox then .ok (AggregateGachaBoxDrops r) else .ok r

/-- Embeds one element of `types.BatchReportRequest.BatchDrops`. -/
structure BatchDropEl where
  fragmentStageID : Str
  drops : List ArkDrop
  metadata : Nat
deriving DecidableEq, Repr

/-- Embeds `types.BatchReportRequest` as far as the pipeline reads it. -/
structure BatchReportRequest where
  server : Str
  source : Str
  version : Str
  batchDrops : List BatchDropEl
deriving DecidableEq, Repr

/-- An error surfaced by a preprocess-and-queue flow: either a pipeline
(validation/lookup) error or a queue-commit error. -/
inductive FlowError where
  | pipeline (code : Nat)
  | queue (e : CommitError)
deriving DecidableEq, Repr

/-- The body of the batch loop in `PreprocessAndQueueBatchReport` for one
element: merge and map its drops, build the single report (`Times` fixed
at 1, the element's metadata taken by address), then aggregate gachabox
drops. -/
def processBatchElement (lookup : Str → Except LookupErr Item)
    (stageCat : Str → Except Nat (Option Str)) (el : BatchDropEl) :
    Except Nat SingleReport :=
  match pipelineMergeDropsAndMapDropTypes lookup el.drops with
  | .error e => .error e
  | .ok (ds, _) =>
    pipelineAggregateGachaboxDrops stageCat
      { stageID := el.fragmentStageID, drops := ds, times := 1, metadata := some el.metadata }

/-- The batch loop of `PreprocessAndQueueBatchReport`: elements are
processed sequentially and the first failing element aborts the whole
loop with its error. -/
def processBatchElements (lookup : Str → Except LookupErr Item)
    (stageCat : Str → Except Nat (Option Str)) :
    List BatchDropEl → Except Nat (List SingleReport)
  | [] => .ok []
  | el :: rest =>
    match processBatchElement lookup stageCat el with
    | .error e => .error e
    | .ok r =>
      match processBatchElements lookup stageCat rest with
      | .error e => .error e
      | .ok rs => .ok (r :: rs)

/-- Embeds `Report.PreprocessAndQueueBatchReport`: resolve the account
(`pipelineAccount`, an oracle), process every batch element, assemble the
task record (its `CreatedAt` field is never assigned, hence the Go zero
value `0`), and commit it.  Returns the (taskId, error) result together
with the list of tasks handed to `PublishAsync` (empty when the flow
fails before the commit step). -/
def PreprocessAndQueueBatchReport (lookup : Str → Except LookupErr Item)
    (stageCat : Str → Except Nat (Option Str)) (accountRes : Except Nat Int)
    (ip requestId rand16 : Str) (publishCallErr : Option Nat) (winner : RaceWinner)
    (req : BatchReportRequest) : (Str × Option FlowError) × List ReportTask :=
  match accountRes with
  | .error e => (([], some (.pipeline e)), [])
  | .ok accountId =>
    match processBatchElements lookup stageCat req.batchDrops with
    | .error e => (([], some (.pipeline e)), [])
    | .ok reports =>
      let task : ReportTask :=
        { taskID := [], createdAt := 0, server := req.server, source := req.source,
          version := req.version, reports := reports, accountID := accountId, ip := ip }
      let r := commitReportTask requestId rand16 task publishCallErr winner
      ((r.1.1, r.1.2.map .queue), [r.2])

/-- Embeds `Report.PreprocessAndQueueSingularReport`: resolve the
account, merge and map the drops, build the single report, aggregate
gachabox drops, apply the act18d3 mitigation to the request, assemble the
task record with `CreatedAt` set to `time.Now().UnixMicro()` (passed in
explicitly), and commit it.  Returns the result together with the list of
tasks handed to `PublishAsync`. -/
def PreprocessAndQueueSingularReport (lookup : Str → Except LookupErr Item)
    (stageCat : Str → Except Nat (Option Str)) (accountRes : Except Nat Int)
    (nowMilli nowMicro : Int) (ip requestId rand16 : Str)
    (publishCallErr : Option Nat) (winner : RaceWinner)
    (req : SingleReportRequest) : (Str × Option FlowError) × List ReportTask :=
  match accountRes with
  | .error e => (([], some (.pipeline e)), [])
  | .ok accountId =>
    match pipelineMergeDropsAndMapDropTypes lookup req.drops with
    | .error e => (([], some (.pipeline e)), [])
    | .ok (ds, _) =>
      let singleReport : SingleReport :=
        { stageID := req.stageID, drops := ds, times := 1, metadata := req.metadata }
      match pipelineAggregateGachaboxDrops stageCat singleReport with
      | .error e => (([], some (.pipeline e)), [])
      | .ok singleReport =>
        let req := pipelineMaaAct18d3TemporaryMitigation nowMilli req
        let task : ReportTask :=
          { taskID := [], createdAt := nowMicro, server := req.server, source := req.source,
            version := req.version, reports := [singleReport], accountID := accountId, ip := ip }
        let r := commitReportTask requestId rand16 task publishCallErr winner
        ((r.1.1, r.1.2.map .queue), [r.2])

/-- The outcome of `RecallSingularReport`: success, the domain-level
`ErrReportNotFound`, a key-value-store transport error, or an error from
the drop-report deletion. -/
inductive RecallResult where
  | ok
  | reportNotFound
  | redisErr (code : Nat)
  | deleteErr (code : Nat)
deriving DecidableEq, Repr

/-- Embeds `Report.RecallSingularReport`.  The key-value store is an
association list from report hashes to internal report ids (a missing key
is redis' `Nil` reply); a transport fault of the initial `Get` and the
outcome of `DropReportRepo.DeleteDropReport` are oracles.  On a hit, the
report is deleted first and only a successful delete is followed by
removal of the hash mapping; the result of the final `Del` is discarded
by the source.  Returns the result paired with the resulting store. -/
def RecallSingularReport (delOutcome : Int → Option Nat) (getFault : Option Nat)
    (kv : List (Str × Int)) (reportHash : Str) :
    RecallResult × List (Str × Int) :=
  match getFault with
  | some c => (.redisErr c, kv)
  | none =>
    match kv.lookup reportHash with
    | none => (.reportNotFound, kv)
    | some reportId =>
      match delOutcome reportId with
      | some c => (.deleteErr c, kv)
      | none => (.ok, kv.filter fun p => ! (p.1 == reportHash))

/-- Embeds the proto3 `oneof` selector shared by the matrix-update
messages: a stage id or an item id, int32-valued. -/
inductive IdSelector where
  | stageId (v : Int)
  | itemId (v : Int)
deriving DecidableEq, Repr

/-- Embeds `MatrixUpdateMessage.Segment.Element`: in the generated code
the `oneof id` is a single interface-typed field, so it holds at most one
selector and may be unset (`none`). -/
structure MatrixElement where
  id : Option IdSelector
  amount : Int
deriving DecidableEq, Repr

/-- Embeds `MatrixUpdateMessage.Segment` with its `oneof bucket`. -/
structure MatrixSegment where
  bucket : Option IdSelector
  elements : List MatrixElement
deriving DecidableEq, Repr

/-- Embeds `MatrixUpdateSubscribeReq` with its `oneof id`. -/
structure MatrixUpdateSubscribeReq where
  sequence : Int
  id : Option IdSelector
deriving DecidableEq, Repr

/-- Whether an embedded `oneof` value has its stage-id variant populated. -/
def hasStageSel : Option IdSelector → Bool
  | some (.stageId _) => true
  | _ => false

/-- Whether an embedded `oneof` value has its item-id variant populated. -/
def hasItemSel : Option IdSelector → Bool
  | some (.itemId _) => true
  | _ => false

/-- Modelled from the spec: the HTTP routing that runs
`VerifySingularReport` before normalization/queueing is not under `src/`.
Per the spec, an unknown drop type is a fatal validation error for the
whole submission (no partial acceptance): on a verification error the
pipeline stops, producing no normalized drops and committing no task;
only on success does the downstream processing run. -/
def verifiedSubmission
    (getDropInfo : Str → Str → List (List Str) → Except Nat (List DropInfo))
    (downstream : SingularReportRequest → List Drop × List ReportTask)
    (report : SingularReportRequest) :
    Option VerifyErr × List Drop × List ReportTask :=
  match VerifySingularReport getDropInfo report with
  | .error e => (some e, [], [])
  | .ok _ => (none, (downstream report).1, (downstream report).2)

/-- The (internal drop-type, internal item id) coordinate of a normalized
drop. -/
def dropKey (d : Drop) : Str × Int := (d.dropType, d.itemID)

theorem mem_addMerged_key (acc : List ArkDrop) (d x : ArkDrop)
    (hx : x ∈ addMerged acc d) :
    mergeKey x ∈ acc.map mergeKey ∨ mergeKey x = mergeKey d := by
  induction acc with
  | nil =>
    simp [addMerged] at hx
    simp [hx]
  | cons a rest ih =>
    simp only [addMerged] at hx
    by_cases h : mergeKey a = mergeKey d
    · rw [if_pos h] at hx
      rcases List.mem_cons.mp hx with h1 | h1
      · subst h1
        left
        simp [mergeKey]
      · left
        simp only [List.map_cons, List.mem_cons]
        right
        exact List.mem_map_of_mem _ h1
    · rw [if_neg h] at hx
      rcases List.mem_cons.mp hx with h1 | h1
      · subst h1
        left
        simp
      · rcases ih h1 with h2 | h2
        · left
          simp only [List.map_cons, List.mem_cons]
          right
          exact h2
        · right
          exact h2

theorem pairwise_addMerged (acc : List ArkDrop) (d : ArkDrop)
    (h : acc.Pairwise fun x y => mergeKey x ≠ mergeKey y) :
    (addMerged acc d).Pairwise fun x y => mergeKey x ≠ mergeKey y := by
  induction acc with
  | nil => simp [addMerged]
  | cons a rest ih =>
    rw [List.pairwise_cons] at h
    obtain ⟨ha, hrest⟩ := h
    simp only [addMerged]
    by_cases hk : mergeKey a = mergeKey d
    · rw [if_pos hk, List.pairwise_cons]
      refine ⟨fun y hy => ?_, hrest⟩
      have := ha y hy
      simpa [mergeKey] using this
    · rw [if_neg hk, List.pairwise_cons]
      refine ⟨fun y hy => ?_, ih hrest⟩
      rcases mem_addMerged_key rest d y hy with h2 | h2
      · rcases List.mem_map.mp h2 with ⟨z, hz, hzk⟩
        intro hcon
        exact ha z hz (hcon.trans hzk.symm)
      · intro hcon
        exact hk (hcon.trans h2)

theorem merge_foldl_pairwise (drops : List ArkDrop) (acc : List ArkDrop)
    (h : acc.Pairwise fun x y => mergeKey x ≠ mergeKey y) :
    (drops.foldl addMerged acc).Pairwise fun x y => mergeKey x ≠ mergeKey y := by
  induction drops generalizing acc with
  | nil => exact h
  | cons d rest ih => exact ih _ (pairwise_addMerged acc d h)

theorem merge_pairwise (drops : List ArkDrop) :
    (MergeDropsByDropTypeAndItemID drops).Pairwise
      fun x y => mergeKey x ≠ mergeKey y :=
  merge_foldl_pairwise drops [] (by simp)

theorem convertDrops_ok_eq (lookup : Str → Except LookupErr Item) :
    ∀ (l : List ArkDrop) (res : List Drop) (ws : List Str),
      convertDrops lookup l = .ok (res, ws) →
      res = l.filterMap (convDrop lookup) ∧
      ws = (l.filter (notFoundF lookup)).map ArkDrop.itemId := by
  intro l
  induction l with
  | nil =>
    intro res ws h
    simp only [convertDrops, Except.ok.injEq, Prod.mk.injEq] at h
    simp [← h.1, ← h.2]
  | cons a rest ih =>
    intro res ws h
    simp only [convertDrops] at h
    cases hl : lookup a.itemId with
    | error le =>
      cases le with
      | notFound =>
        rw [hl] at h
        cases hr : convertDrops lookup rest with
        | error e => rw [hr] at h; exact absurd h (by simp)
        | ok p =>
          obtain ⟨ds, ws'⟩ := p
          rw [hr] at h
          simp only [Except.ok.injEq, Prod.mk.injEq] at h
          obtain ⟨hres, hws⟩ := h
          obtain ⟨ih1, ih2⟩ := ih ds ws' hr
          subst hres hws
          constructor
          · rw [List.filterMap_cons_none]
            · exact ih1
            · simp [convDrop, hl]
          · rw [List.filter_cons_of_pos]
            · simp [ih2]
            · simp [notFoundF, hl]
      | failure e =>
        rw [hl] at h
        exact absurd h (by simp)
    | ok item =>
      rw [hl] at h
      cases hr : convertDrops lookup rest with
      | error e => rw [hr] at h; exact absurd h (by simp)
      | ok p =>
        obtain ⟨ds, ws'⟩ := p
        rw [hr] at h
        simp only [Except.ok.injEq, Prod.mk.injEq] at h
        obtain ⟨hres, hws⟩ := h
        obtain ⟨ih1, ih2⟩ := ih ds ws' hr
        subst hres hws
        constructor
        · rw [List.filterMap_cons_some]
          · rw [ih1]
          · simp [convDrop, hl]
        · rw [List.filter_cons_of_neg]
          · exact ih2
          · simp [notFoundF, hl]

theorem nodup_filterMap_of_pairwise {α β : Type} {f : α → Option β} :
    ∀ {l : List α},
      (l.Pairwise fun x y => ∀ b, f x = some b → f y ≠ some b) →
      (l.filterMap f).Nodup := by
  intro l
  induction l with
  | nil => intro _; simp
  | cons a rest ih =>
    intro h
    rw [List.pairwise_cons] at h
    obtain ⟨ha, hrest⟩ := h
    cases hf : f a with
    | none =>
      rw [List.filterMap_cons_none hf]
      exact ih hrest
    | some b =>
      rw [List.filterMap_cons_some hf, List.nodup_cons]
      refine ⟨fun hb => ?_, ih hrest⟩
      rcases List.mem_filterMap.mp hb with ⟨y, hy, hfy⟩
      exact ha y hy b hf hfy

theorem dropTypeMap_ne_some_nil (s : Str) : DropTypeMap s ≠ some [] := by
  unfold DropTypeMap
  split_ifs <;> decide

theorem convKey_incompat (lookup : Str → Except LookupErr Item)
    (hinj : ∀ a b ia ib, lookup a = .ok ia → lookup b = .ok ib →
      ia.itemID = ib.itemID → a = b)
    (x y : ArkDrop) (hxy : mergeKey x ≠ mergeKey y) :
    ∀ b, (convDrop lookup x).map dropKey = some b →
      (convDrop lookup y).map dropKey ≠ some b := by
  intro b hx hy
  unfold convDrop at hx hy
  cases hlx : lookup x.itemId with
  | error e => rw [hlx] at hx; exact absurd hx (by simp)
  | ok ix =>
    rw [hlx] at hx
    cases hly : lookup y.itemId with
    | error e => rw [hly] at hy; exact absurd hy (by simp)
    | ok iy =>
      rw [hly] at hy
      obtain ⟨b1, b2⟩ := b
      simp only [Option.map_some', Option.some.injEq, dropKey, Prod.mk.injEq] at hx hy
      have htypes : (DropTypeMap x.dropType).getD [] = (DropTypeMap y.dropType).getD [] :=
        hx.1.trans hy.1.symm
      have hids : ix.itemID = iy.itemID := hx.2.trans hy.2.symm
      have hitem : x.itemId = y.itemId := hinj _ _ _ _ hlx hly hids
      apply hxy
      unfold mergeKey
      rw [hitem]
      rcases hmx : DropTypeMap x.dropType with - | u <;>
        rcases hmy : DropTypeMap y.dropType with - | v
      · rfl
      · rw [hmx, hmy] at htypes
        simp only [Option.getD_none, Option.getD_some] at htypes
        exact absurd hmy.symm (htypes ▸ fun hc => dropTypeMap_ne_some_nil _ hc.symm)
      · rw [hmx, hmy] at htypes
        simp only [Option.getD_none, Option.getD_some] at htypes
        exact absurd hmx (htypes ▸ dropTypeMap_ne_some_nil _)
      · rw [hmx, hmy] at htypes
        simp only [Option.getD_some] at htypes
        rw [htypes]

theorem lookupEx_inj : ∀ a b ia ib, lookupEx a = .ok ia → lookupEx b = .ok ib →
    ia.itemID = ib.itemID → a = b := by
  intro a b ia ib ha hb _
  by_cases h1 : a = str "A" <;> by_cases h2 : b = str "A" <;>
    simp [lookupEx, h1, h2] at ha hb ⊢

/-- C1: within one single-report submission the normalizer produces at
most one normalized drop per (internal drop-type, internal item id) pair
(given an item catalog resolving distinct external ids to distinct
internal ids), and the spec's concrete instance
`[(REGULAR_DROP, "A", 1), (NORMAL_DROP, "A", 2)]` normalizes to exactly
the single drop `(REGULAR, internalIdOf "A", 3)`. -/
theorem C1_merge_normalization :
    (∀ (lookup : Str → Except LookupErr Item) (drops : List ArkDrop)
       (res : List Drop) (ws : List Str),
       (∀ a b ia ib, lookup a = .ok ia → lookup b = .ok ib →
          ia.itemID = ib.itemID → a = b) →
       pipelineMergeDropsAndMapDropTypes lookup drops = .ok (res, ws) →
       (res.map dropKey).Nodup) ∧
    pipelineMergeDropsAndMapDropTypes lookupEx dropsEx =
      .ok ([{ dropType := str "REGULAR", itemID := 42, quantity := 3 }], []) := by
  constructor
  · intro lookup drops res ws hinj hok
    obtain ⟨hres, -⟩ :=
      convertDrops_ok_eq lookup (MergeDropsByDropTypeAndItemID drops) res ws hok
    subst hres
    rw [List.map_filterMap]
    exact nodup_filterMap_of_pairwise
      ((merge_pairwise drops).imp fun hxy => convKey_incompat lookup hinj _ _ hxy)
  · rfl

/-- Witness for C1 at the spec's concrete input. -/
theorem C1_merge_normalization_witness :
    ∃ res ws, pipelineMergeDropsAndMapDropTypes lookupEx dropsEx = .ok (res, ws) ∧
      (res.map dropKey).Nodup :=
  ⟨_, _, C1_merge_normalization.2,
    C1_merge_normalization.1 lookupEx dropsEx _ _ lookupEx_inj
      C1_merge_normalization.2⟩

theorem convertDrops_ok_of_no_failure (lookup : Str → Except LookupErr Item) :
    ∀ (l : List ArkDrop),
      (∀ a ∈ l, ∀ c, lookup a.itemId ≠ .error (.failure c)) →
      ∃ res ws, convertDrops lookup l = .ok (res, ws) := by
  intro l
  induction l with
  | nil => intro _; exact ⟨[], [], rfl⟩
  | cons a rest ih =>
    intro h
    obtain ⟨res, ws, hr⟩ := ih fun b hb c => h b (List.mem_cons_of_mem _ hb) c
    cases hl : lookup a.itemId with
    | ok item =>
      refine ⟨{ dropType := (DropTypeMap a.dropType).getD []
                itemID := item.itemID
                quantity := a.quantity } :: res, ws, ?_⟩
      simp only [convertDrops, hl, hr]
    | error le =>
      cases le with
      | notFound =>
        refine ⟨res, a.itemId :: ws, ?_⟩
        simp only [convertDrops, hl, hr]
      | failure c => exact absurd hl (h a (List.mem_cons_self a rest) c)

theorem convertDrops_error_of_failure (lookup : Str → Except LookupErr Item) :
    ∀ (l : List ArkDrop),
      (∃ a ∈ l, ∃ c, lookup a.itemId = .error (.failure c)) →
      ∃ c, convertDrops lookup l = .error c := by
  intro l
  induction l with
  | nil =>
    rintro ⟨a, ha, -⟩
    exact absurd ha (List.not_mem_nil a)
  | cons a rest ih =>
    rintro ⟨b, hb, c, hc⟩
    rcases List.mem_cons.mp hb with rfl | hbr
    · exact ⟨c, by simp only [convertDrops, hc]⟩
    · cases hl : lookup a.itemId with
      | error le =>
        cases le with
        | notFound =>
          obtain ⟨c2, hc2⟩ := ih ⟨b, hbr, c, hc⟩
          exact ⟨c2, by simp only [convertDrops, hl, hc2]⟩
        | failure c2 => exact ⟨c2, by simp only [convertDrops, hl]⟩
      | ok item =>
        obtain ⟨c2, hc2⟩ := ih ⟨b, hbr, c, hc⟩
        exact ⟨c2, by simp only [convertDrops, hl, hc2]⟩

/-- C9: in the normalizer, a drop whose item lookup reports not-found is
silently omitted from the normalized output (with a warning recording its
ark item id) and processing continues; submissions with only ok or
not-found lookups succeed, while any other lookup error is fatal and
fails the whole submission. -/
theorem C9_item_notfound_fallback :
    ∀ (lookup : Str → Except LookupErr Item) (drops : List ArkDrop),
      (∀ res ws,
        pipelineMergeDropsAndMapDropTypes lookup drops = .ok (res, ws) →
        res = (MergeDropsByDropTypeAndItemID drops).filterMap (convDrop lookup) ∧
        ws = ((MergeDropsByDropTypeAndItemID drops).filter
                (notFoundF lookup)).map ArkDrop.itemId) ∧
      ((∀ a ∈ MergeDropsByDropTypeAndItemID drops, ∀ c,
          lookup a.itemId ≠ .error (.failure c)) →
        ∃ res ws, pipelineMergeDropsAndMapDropTypes lookup drops = .ok (res, ws)) ∧
      ((∃ a ∈ MergeDropsByDropTypeAndItemID drops, ∃ c,
          lookup a.itemId = .error (.failure c)) →
        ∃ c, pipelineMergeDropsAndMapDropTypes lookup drops = .error c) := by
  intro lookup drops
  exact ⟨fun res ws h => convertDrops_ok_eq lookup _ res ws h,
         fun h => convertDrops_ok_of_no_failure lookup _ h,
         fun h => convertDrops_error_of_failure lookup _ h⟩

/-- A raw drop whose item id every failing catalog rejects. -/
def dropBad : ArkDrop :=
  { dropType := str "REGULAR_DROP", itemId := str "BAD", quantity := 1 }

/-- An item catalog whose lookups always fail with a non-not-found error. -/
def lookupBad : Str → Except LookupErr Item := fun _ => .error (.failure 7)

/-- Witness for C9: the merged example input (one hit, all others
not-found) normalizes successfully, while a catalog failing with a
non-not-found error fails the submission. -/
theorem C9_item_notfound_fallback_witness :
    (∃ res ws, pipelineMergeDropsAndMapDropTypes lookupEx dropsEx = .ok (res, ws)) ∧
    (∃ c, pipelineMergeDropsAndMapDropTypes lookupBad [dropBad] = .error c) := by
  constructor
  · apply (C9_item_notfound_fallback lookupEx dropsEx).2.1
    intro a ha c
    have hm : MergeDropsByDropTypeAndItemID dropsEx =
        [{ dropType := str "REGULAR_DROP", itemId := str "A", quantity := 3 }] := rfl
    rw [hm] at ha
    rcases List.mem_singleton.mp ha with rfl
    simp [lookupEx]
  · exact (C9_item_notfound_fallback lookupBad [dropBad]).2.2
      ⟨dropBad, by decide, 7, rfl⟩

/-- C8 counterexample: `REGULAR_DROP` is a key of the drop-type map yet is
absent from `DropTypeMapKeys`, so the key list does not contain all four
keys of the map. -/
theorem C8_counterexample :
    (DropTypeMap (str "REGULAR_DROP")).isSome = true ∧
    str "REGULAR_DROP" ∉ DropTypeMapKeys := by
  decide

/-- C8 (amended): the module-level vocabulary is the immutable four-entry
map {REGULAR_DROP→REGULAR, NORMAL_DROP→REGULAR, SPECIAL_DROP→SPECIAL,
EXTRA_DROP→EXTRA} (everything else unmapped), but the fixed ordered key
list used in error messages holds exactly NORMAL_DROP, SPECIAL_DROP and
EXTRA_DROP — three of the four keys, omitting REGULAR_DROP. -/
theorem C8_vocabulary :
    (∀ s : Str, DropTypeMap s ≠ none ↔
       s ∈ [str "REGULAR_DROP", str "NORMAL_DROP", str "SPECIAL_DROP",
            str "EXTRA_DROP"]) ∧
    DropTypeMap (str "REGULAR_DROP") = some (str "REGULAR") ∧
    DropTypeMap (str "NORMAL_DROP") = some (str "REGULAR") ∧
    DropTypeMap (str "SPECIAL_DROP") = some (str "SPECIAL") ∧
    DropTypeMap (str "EXTRA_DROP") = some (str "EXTRA") ∧
    DropTypeMapKeys = [str "NORMAL_DROP", str "SPECIAL_DROP", str "EXTRA_DROP"] ∧
    (∀ k ∈ DropTypeMapKeys, (DropTypeMap k).isSome = true) ∧
    str "REGULAR_DROP" ∉ DropTypeMapKeys := by
  refine ⟨?_, rfl, rfl, rfl, rfl, rfl, by decide, by decide⟩
  intro s
  unfold DropTypeMap
  split_ifs <;> simp_all

/-- Witness for C8 at the concrete key `NORMAL_DROP`. -/
theorem C8_vocabulary_witness :
    DropTypeMap (str "NORMAL_DROP") ≠ none ∧
    (DropTypeMap (str "NORMAL_DROP")).isSome = true :=
  ⟨(C8_vocabulary.1 (str "NORMAL_DROP")).mpr (by decide),
   C8_vocabulary.2.2.2.2.2.2.1 (str "NORMAL_DROP") (by decide)⟩

/-- C7 counterexample: a subscribe request with no selector populated is
representable — the proto3 `oneof` admits the unset state, so a value with
zero selectors is not rejected at construction. -/
theorem C7_counterexample :
    ∃ r : MatrixUpdateSubscribeReq, r.id = none :=
  ⟨{ sequence := 0, id := none }, rfl⟩

theorem selector_not_both (o : Option IdSelector) :
    ¬(hasStageSel o = true ∧ hasItemSel o = true) := by
  rcases o with - | sel
  · simp [hasStageSel]
  · cases sel <;> simp [hasStageSel, hasItemSel]

/-- C7 (amended): every subscribe request, segment and element carries at
most one bucket/coordinate selector — a stage id and an item id can never
both be populated, this being unrepresentable by construction — while the
unset (neither) state remains representable, per proto3 oneof
semantics. -/
theorem C7_at_most_one_selector :
    ∀ (r : MatrixUpdateSubscribeReq) (s : MatrixSegment) (e : MatrixElement),
      ¬(hasStageSel r.id = true ∧ hasItemSel r.id = true) ∧
      ¬(hasStageSel s.bucket = true ∧ hasItemSel s.bucket = true) ∧
      ¬(hasStageSel e.id = true ∧ hasItemSel e.id = true) :=
  fun r s e => ⟨selector_not_both r.id, selector_not_both s.bucket,
    selector_not_both e.id⟩

/-- Witness for C7 on a concrete request, segment and element. -/
theorem C7_at_most_one_selector_witness :
    ¬(hasStageSel (some (.stageId 1)) = true ∧
      hasItemSel (some (.stageId 1)) = true) :=
  (C7_at_most_one_selector { sequence := 0, id := some (.stageId 1) }
    { bucket := none, elements := [] } { id := none, amount := 0 }).1

/-- A concrete single-report request from the legacy client, whose stage
id matches the code's prefix/suffix check but not the documented
`act18d3_0<digit>_perm` form. -/
def reqMaa : SingleReportRequest :=
  { server := str "CN", source := str "MeoAssistant", version := str "v1",
    stageID := str "act18d3_10_perm", drops := [], metadata := none }

/-- C3: evaluation of the mitigation filter at the failing input.  The
stage id `act18d3_10_perm` does not match the `act18d3_0<digit>_perm`
pattern required by the claim (and by the function's own comment), yet
the code — which only checks the `act18d3_` prefix and `_perm` suffix —
rewrites it before the cutoff; the documented-in-scope input
`act18d3_05_perm` is rewritten as claimed, and a different source string
is left unchanged. -/
theorem C3_mitigation_divergence :
    specPatternAct18d3 (str "act18d3_10_perm") = false ∧
    specPatternAct18d3 (str "act18d3_05_perm") = true ∧
    (0 : Int) < maaCutoffMilli ∧
    (pipelineMaaAct18d3TemporaryMitigation 0 reqMaa).stageID =
      str "act18d3_10_rep" ∧
    (pipelineMaaAct18d3TemporaryMitigation 0
        { reqMaa with stageID := str "act18d3_05_perm" }).stageID =
      str "act18d3_05_rep" ∧
    (pipelineMaaAct18d3TemporaryMitigation 0
        { reqMaa with source := str "OtherSource" }).stageID =
      str "act18d3_10_perm" := by
  refine ⟨by decide, by decide, by decide, ?_, ?_, ?_⟩ <;> rfl

/-- A concrete queue-bound task used for grounding commit theorems. -/
def taskEx : ReportTask :=
  { taskID := [], createdAt := 0, server := str "CN", source := str "MeoAssistant",
    version := str "v1", reports := [], accountID := 1, ip := str "1.2.3.4" }

/-- C4: the queue commit observes exactly one of the four outcomes —
publish acknowledged (task id, no error), publish failure (the publish
error), caller cancellation (the cancellation error), or the dedicated
timeout error — and never returns a task id together with an error; the
timeout error is a sentinel distinct from every publish and cancellation
error. -/
theorem C4_commit_outcomes :
    ∀ (requestId rand16 : Str) (task : ReportTask) (pce : Option Nat)
      (w : RaceWinner),
      ((commitReportTask requestId rand16 task pce w).1.2 = none ↔
        pce = none ∧ w = .ackOk) ∧
      ((commitReportTask requestId rand16 task pce w).1.2 = none →
        (commitReportTask requestId rand16 task pce w).1.1 =
          pipelineTaskId requestId rand16) ∧
      ((commitReportTask requestId rand16 task pce w).1.2 ≠ none →
        (commitReportTask requestId rand16 task pce w).1.1 = []) ∧
      (pce = none → w = .timeout →
        (commitReportTask requestId rand16 task pce w).1.2 =
          some .natsTimeout) ∧
      (∀ c, some CommitError.natsTimeout ≠ some (CommitError.publishNak c) ∧
            some CommitError.natsTimeout ≠ some (CommitError.publishCall c) ∧
            some CommitError.natsTimeout ≠ some (CommitError.canceled c)) ∧
      (pce = none → ∀ c, w = .ctxDone c →
        (commitReportTask requestId rand16 task pce w).1.2 =
          some (.canceled c)) ∧
      (∀ c, pce = some c →
        (commitReportTask requestId rand16 task pce w).1.2 =
          some (.publishCall c)) ∧
      (pce = none → ∀ c, w = .ackErr c →
        (commitReportTask requestId rand16 task pce w).1.2 =
          some (.publishNak c)) := by
  intro requestId rand16 task pce w
  cases pce <;> cases w <;> simp [commitReportTask, pipelineTaskId]

/-- Witness for C4: a commit whose race the 10-second timer wins returns
exactly the dedicated timeout error. -/
theorem C4_commit_outcomes_witness :
    (commitReportTask (str "req1") (str "r16x") taskEx none .timeout).1.2 =
      some .natsTimeout :=
  (C4_commit_outcomes (str "req1") (str "r16x") taskEx none .timeout).2.2.2.1
    rfl rfl

theorem processBatchElements_error_of_mem (lookup : Str → Except LookupErr Item)
    (stageCat : Str → Except Nat (Option Str)) :
    ∀ (l : List BatchDropEl),
      (∃ el ∈ l, ∃ e, processBatchElement lookup stageCat el = .error e) →
      ∃ e, processBatchElements lookup stageCat l = .error e := by
  intro l
  induction l with
  | nil =>
    rintro ⟨el, hel, -⟩
    exact absurd hel (List.not_mem_nil el)
  | cons a rest ih =>
    rintro ⟨el, hel, e, he⟩
    rcases List.mem_cons.mp hel with rfl | hrest
    · exact ⟨e, by simp only [processBatchElements, he]⟩
    · cases ha : processBatchElement lookup stageCat a with
      | error e2 => exact ⟨e2, by simp only [processBatchElements, ha]⟩
      | ok r =>
        obtain ⟨e2, he2⟩ := ih ⟨el, hrest, e, he⟩
        exact ⟨e2, by simp only [processBatchElements, ha, he2]⟩

/-- C5: batch submission is all-or-nothing — if any batch element fails
normalization or gachabox aggregation, the whole request fails with a
pipeline error and no task is ever handed to the queue publish, including
for elements processed before the failing one. -/
theorem C5_batch_atomicity :
    ∀ (lookup : Str → Except LookupErr Item)
      (stageCat : Str → Except Nat (Option Str)) (accountRes : Except Nat Int)
      (ip requestId rand16 : Str) (pce : Option Nat) (w : RaceWinner)
      (req : BatchReportRequest),
      (∃ el ∈ req.batchDrops, ∃ e,
        processBatchElement lookup stageCat el = .error e) →
      (PreprocessAndQueueBatchReport lookup stageCat accountRes ip requestId
         rand16 pce w req).2 = [] ∧
      ∃ e, (PreprocessAndQueueBatchReport lookup stageCat accountRes ip requestId
         rand16 pce w req).1.2 = some (.pipeline e) := by
  intro lookup stageCat accountRes ip requestId rand16 pce w req hfail
  rcases accountRes with e | aid
  · exact ⟨rfl, e, rfl⟩
  · obtain ⟨e2, he2⟩ := processBatchElements_error_of_mem lookup stageCat _ hfail
    refine ⟨?_, e2, ?_⟩ <;> simp [PreprocessAndQueueBatchReport, he2]

/-- A stage-category oracle with no gachabox stages and no failures. -/
def stageCatEx : Str → Except Nat (Option Str) := fun _ => .ok none

/-- A concrete batch request whose only element fails normalization under
the failing catalog. -/
def batchBad : BatchReportRequest :=
  { server := str "CN", source := str "MeoAssistant", version := str "v1",
    batchDrops := [{ fragmentStageID := str "main_01-07", drops := [dropBad],
                     metadata := 0 }] }

/-- Witness for C5 at the concrete failing batch. -/
theorem C5_batch_atomicity_witness :
    (PreprocessAndQueueBatchReport lookupBad stageCatEx (.ok 1) (str "ip")
       (str "req1") (str "r16x") none .ackOk batchBad).2 = [] ∧
    ∃ e, (PreprocessAndQueueBatchReport lookupBad stageCatEx (.ok 1) (str "ip")
       (str "req1") (str "r16x") none .ackOk batchBad).1.2 =
         some (.pipeline e) :=
  C5_batch_atomicity lookupBad stageCatEx (.ok 1) (str "ip") (str "req1")
    (str "r16x") none .ackOk batchBad
    ⟨{ fragmentStageID := str "main_01-07", drops := [dropBad], metadata := 0 },
      by decide, 7, rfl⟩

theorem lookup_filter_erase (kv : List (Str × Int)) (hs : Str) :
    (kv.filter fun p => ! (p.1 == hs)).lookup hs = none := by
  induction kv with
  | nil => rfl
  | cons p rest ih =>
    by_cases hp : p.1 = hs
    · simp [List.filter_cons, hp, ih]
    · have hb : (p.1 == hs) = false := beq_eq_false_iff_ne.mpr hp
      have hb2 : (hs == p.1) = false := beq_eq_false_iff_ne.mpr (Ne.symm hp)
      simp [List.filter_cons, hb, List.lookup, hb2, ih]

/-- C6: recall returns the domain-level not-found error when the store
holds no mapping for the hash and leaves the store unchanged; on a hit it
deletes the persisted report first, keeping the mapping in place whenever
that delete fails, and removes the mapping only after the delete
succeeds; hence a second recall of the same hash after a successful one
returns not-found — never two successes. -/
theorem C6_recall_semantics :
    ∀ (del del2 : Int → Option Nat) (kv : List (Str × Int)) (hs : Str),
      (kv.lookup hs = none →
        RecallSingularReport del none kv hs = (.reportNotFound, kv)) ∧
      (∀ rid c, kv.lookup hs = some rid → del rid = some c →
        RecallSingularReport del none kv hs = (.deleteErr c, kv)) ∧
      (∀ rid, kv.lookup hs = some rid → del rid = none →
        (RecallSingularReport del none kv hs).1 = .ok ∧
        (RecallSingularReport del none kv hs).2.lookup hs = none) ∧
      ((RecallSingularReport del none kv hs).1 = .ok →
        (RecallSingularReport del2 none
           (RecallSingularReport del none kv hs).2 hs).1 = .reportNotFound) := by
  intro del del2 kv hs
  refine ⟨?_, ?_, ?_, ?_⟩
  · intro h
    simp [RecallSingularReport, h]
  · intro rid c h hd
    simp [RecallSingularReport, h, hd]
  · intro rid h hd
    refine ⟨by simp [RecallSingularReport, h, hd], ?_⟩
    simp [RecallSingularReport, h, hd, lookup_filter_erase]
  · intro hok
    rcases hl : kv.lookup hs with - | rid
    · simp [RecallSingularReport, hl] at hok
    · rcases hd : del rid with - | c
      · simp [RecallSingularReport, hl, hd, lookup_filter_erase]
      · simp [RecallSingularReport, hl, hd] at hok

/-- A concrete key-value store holding one recallable report hash. -/
def kvEx : List (Str × Int) := [(str "hash1", 5)]

/-- Witness for C6: recalling the stored hash succeeds once, and a second
recall on the resulting store reports not-found. -/
theorem C6_recall_semantics_witness :
    (RecallSingularReport (fun _ => none) none kvEx (str "hash1")).1 = .ok ∧
    (RecallSingularReport (fun _ => none) none
       (RecallSingularReport (fun _ => none) none kvEx (str "hash1")).2
       (str "hash1")).1 = .reportNotFound := by
  have h := C6_recall_semantics (fun _ => none) (fun _ => none) kvEx (str "hash1")
  have hok := (h.2.2.1 5 (by decide) rfl).1
  exact ⟨hok, h.2.2.2 hok⟩

theorem buildTuples_err_shape :
    ∀ l : List DtoDrop, (buildTuples l).2 = none ∨
      ∃ s, (buildTuples l).2 = some (.invalidDropType s) ∧ DropTypeMap s = none := by
  intro l
  induction l with
  | nil => exact Or.inl rfl
  | cons d rest ih =>
    cases hm : DropTypeMap d.dropType with
    | some m =>
      rcases ih with hn | ⟨s, hs, hsn⟩
      · exact Or.inl (by simp [buildTuples, hm, hn])
      · exact Or.inr ⟨s, by simp [buildTuples, hm, hs], hsn⟩
    | none =>
      rcases ih with hn | ⟨s, hs, hsn⟩
      · exact Or.inr ⟨d.dropType, by simp [buildTuples, hm, hn], hm⟩
      · exact Or.inr ⟨s, by simp [buildTuples, hm, hs], hsn⟩

theorem buildTuples_err_invalid :
    ∀ l : List DtoDrop, (∃ d ∈ l, DropTypeMap d.dropType = none) →
      ∃ s, (buildTuples l).2 = some (.invalidDropType s) ∧ DropTypeMap s = none := by
  intro l
  induction l with
  | nil =>
    rintro ⟨d, hd, -⟩
    exact absurd hd (List.not_mem_nil d)
  | cons d rest ih =>
    rintro ⟨b, hb, hbn⟩
    rcases List.mem_cons.mp hb with rfl | hbr
    · rcases buildTuples_err_shape rest with hn | ⟨s, hs, hsn⟩
      · exact ⟨b.dropType, by simp [buildTuples, hbn, hn], hbn⟩
      · exact ⟨s, by simp [buildTuples, hbn, hs], hsn⟩
    · obtain ⟨s, hs, hsn⟩ := ih ⟨b, hbr, hbn⟩
      cases hm : DropTypeMap d.dropType with
      | some m => exact ⟨s, by simp [buildTuples, hm, hs], hsn⟩
      | none => exact ⟨s, by simp [buildTuples, hm, hs], hsn⟩

/-- C2: a submission containing any drop whose drop-type is outside the
closed vocabulary fails `VerifySingularReport` with an invalid-drop-type
validation error, and the verified submission pipeline then produces zero
normalized drops and zero task records. -/
theorem C2_unknown_droptype_rejected :
    ∀ (getDropInfo : Str → Str → List (List Str) → Except Nat (List DropInfo))
      (downstream : SingularReportRequest → List Drop × List ReportTask)
      (report : SingularReportRequest),
      (∃ d ∈ report.drops, DropTypeMap d.dropType = none) →
      (∃ s, VerifySingularReport getDropInfo report =
          .error (.invalidDropType s) ∧ DropTypeMap s = none) ∧
      (verifiedSubmission getDropInfo downstream report).1.isSome = true ∧
      (verifiedSubmission getDropInfo downstream report).2.1 = [] ∧
      (verifiedSubmission getDropInfo downstream report).2.2 = [] := by
  intro g ds report hinv
  obtain ⟨s, hs, hsn⟩ := buildTuples_err_invalid report.drops hinv
  have hv : VerifySingularReport g report = .error (.invalidDropType s) := by
    simp [VerifySingularReport, hs]
  exact ⟨⟨s, hv, hsn⟩, by simp [verifiedSubmission, hv],
    by simp [verifiedSubmission, hv], by simp [verifiedSubmission, hv]⟩

/-- A singular-report request carrying a drop type outside the closed
vocabulary. -/
def badReport : SingularReportRequest :=
  { server := str "CN", stageId := str "main_01-07",
    drops := [{ dropType := str "FURNITURE", itemId := str "A", quantity := 1 }] }

/-- A drop-info repository oracle that would accept anything — the
validation error must fire before it is ever consulted. -/
def gdiEx : Str → Str → List (List Str) → Except Nat (List DropInfo) :=
  fun _ _ _ => .ok []

/-- A downstream pipeline oracle that would produce a normalized drop and
a task if it ran. -/
def downstreamEx : SingularReportRequest → List Drop × List ReportTask :=
  fun _ => ([{ dropType := str "REGULAR", itemID := 42, quantity := 1 }], [taskEx])

/-- Witness for C2 at the concrete invalid submission. -/
theorem C2_unknown_droptype_rejected_witness :
    (∃ s, VerifySingularReport gdiEx badReport = .error (.invalidDropType s) ∧
       DropTypeMap s = none) ∧
    (verifiedSubmission gdiEx downstreamEx badReport).1.isSome = true ∧
    (verifiedSubmission gdiEx downstreamEx badReport).2.1 = [] ∧
    (verifiedSubmission gdiEx downstreamEx badReport).2.2 = [] :=
  C2_unknown_droptype_rejected gdiEx downstreamEx badReport
    ⟨{ dropType := str "FURNITURE", itemId := str "A", quantity := 1 },
      by decide, by decide⟩

/-- C10: the batch flow assembles its report task without ever assigning
the creation timestamp, leaving it at the Go zero value `0`, while the
single-report flow sets it to the current `UnixMicro` time at assembly;
this holds for every task either flow hands to the queue publish. -/
theorem C10_task_createdAt :
    ∀ (lookup : Str → Except LookupErr Item)
      (stageCat : Str → Except Nat (Option Str)) (accountRes : Except Nat Int)
      (nowMilli nowMicro : Int) (ip requestId rand16 : Str) (pce : Option Nat)
      (w : RaceWinner) (breq : BatchReportRequest) (sreq : SingleReportRequest),
      (∀ t ∈ (PreprocessAndQueueBatchReport lookup stageCat accountRes ip
                requestId rand16 pce w breq).2, t.createdAt = 0) ∧
      (∀ t ∈ (PreprocessAndQueueSingularReport lookup stageCat accountRes
                nowMilli nowMicro ip requestId rand16 pce w sreq).2,
        t.createdAt = nowMicro) := by
  intro lookup stageCat accountRes nowMilli nowMicro ip requestId rand16 pce w breq sreq
  constructor
  · intro t ht
    rcases accountRes with e | aid
    · simp [PreprocessAndQueueBatchReport] at ht
    · rcases hpe : processBatchElements lookup stageCat breq.batchDrops with e | reports
      · simp [PreprocessAndQueueBatchReport, hpe] at ht
      · simp [PreprocessAndQueueBatchReport, hpe, commitReportTask] at ht
        subst ht
        rfl
  · intro t ht
    rcases accountRes with e | aid
    · simp [PreprocessAndQueueSingularReport] at ht
    · rcases hm : pipelineMergeDropsAndMapDropTypes lookup sreq.drops with e | p
      · simp [PreprocessAndQueueSingularReport, hm] at ht
      · obtain ⟨ds, ws⟩ := p
        rcases hg : pipelineAggregateGachaboxDrops stageCat
            { stageID := sreq.stageID, drops := ds, times := 1,
              metadata := sreq.metadata } with e | sr
        · simp [PreprocessAndQueueSingularReport, hm, hg] at ht
        · simp [PreprocessAndQueueSingularReport, hm, hg, commitReportTask] at ht
          subst ht
          rfl

/-- A concrete empty batch request. -/
def breqEx : BatchReportRequest :=
  { server := str "CN", source := str "web", version := str "v1", batchDrops := [] }

/-- A concrete single-report request with no drops. -/
def sreqEx : SingleReportRequest :=
  { server := str "CN", source := str "web", version := str "v1",
    stageID := str "main_01-07", drops := [], metadata := none }

/-- The task the batch flow publishes for `breqEx`. -/
def taskBEx : ReportTask :=
  { taskID := str "req1-r16x", createdAt := 0, server := str "CN",
    source := str "web", version := str "v1", reports := [], accountID := 1,
    ip := str "ip" }

/-- The task the single flow publishes for `sreqEx` at `UnixMicro` 987. -/
def taskSEx : ReportTask :=
  { taskID := str "req1-r16x", createdAt := 987, server := str "CN",
    source := str "web", version := str "v1",
    reports := [{ stageID := str "main_01-07", drops := [], times := 1,
                  metadata := none }],
    accountID := 1, ip := str "ip" }

/-- Witness for C10 at concrete flows. -/
theorem C10_task_createdAt_witness :
    taskBEx.createdAt = 0 ∧ taskSEx.createdAt = 987 :=
  ⟨(C10_task_createdAt lookupEx stageCatEx (.ok 1) 0 987 (str "ip") (str "req1")
      (str "r16x") none .ackOk breqEx sreqEx).1 taskBEx (by decide),
   (C10_task_createdAt lookupEx stageCatEx (.ok 1) 0 987 (str "ip") (str "req1")
      (str "r16x") none .ackOk breqEx sreqEx).2 taskSEx (by decide)⟩
